import Mathlib

/-!
Verification of the library-management core (src/LMS/main.py).

The SQLite-backed core is shallowly embedded: each table is a list of
records, AUTOINCREMENT columns are modelled by explicit next-id counters,
and each Python function returning a `(ok, message)` pair becomes a Lean
function returning `(Bool × String) × DB` (the message strings are the
exact strings from the source).  Timestamps are abstract instants (`Nat`,
in days), so the fourteen-day loan period is an addition of
`DEFAULT_LOAN_DAYS`.
-/

namespace LMS

/-- Loan period, from `DEFAULT_LOAN_DAYS = 14` in the source. -/
def DEFAULT_LOAN_DAYS : Nat := 14

/-- Stand-in for `hash_password` (sha256 hex digest): the core only ever
compares digests for equality, so any injective tagging models it. -/
def hash_password (pw : String) : String := "sha256:" ++ pw

/-- Python's `str.strip()`: leading and trailing whitespace removed. -/
def pyStrip (s : String) : String :=
  ⟨((s.data.dropWhile Char.isWhitespace).reverse.dropWhile
      Char.isWhitespace).reverse⟩

/-- The characters of a string, ASCII-lowercased. -/
def lowerData (s : String) : List Char := s.data.map Char.toLower

/-- A row of the `users` table. -/
structure User where
  user_id : Nat
  username : String
  password_hash : String
  role : String
deriving DecidableEq, Repr

/-- A row of the `books` table.  `isbn` is always written as a string by
`add_book` / `update_book` (`(isbn or "").strip()`), so it is a `String`;
`year` may be NULL.  Quantities are SQLite integers, hence `Int`. -/
structure Book where
  book_id : Nat
  title : String
  author : String
  isbn : String
  year : Option Int
  qty_total : Int
  qty_available : Int
deriving DecidableEq, Repr

/-- A row of the `borrowed` table; `return_date = none` is SQL NULL. -/
structure Loan where
  borrow_id : Nat
  user_id : Nat
  book_id : Nat
  borrow_date : Nat
  due_date : Nat
  return_date : Option Nat
deriving DecidableEq, Repr

/-- The whole database: the three tables plus the AUTOINCREMENT counters. -/
structure DB where
  users : List User
  books : List Book
  borrowed : List Loan
  nextUserId : Nat
  nextBookId : Nat
  nextBorrowId : Nat
deriving DecidableEq, Repr

/-- A fresh database, as created by the CREATE TABLE statements. -/
def emptyDB : DB := ⟨[], [], [], 1, 1, 1⟩

/-- `SELECT ... FROM books WHERE book_id=?` followed by `fetchone()`. -/
def findBook (db : DB) (book_id : Nat) : Option Book :=
  db.books.find? (fun b => b.book_id == book_id)

/-- `SELECT ... FROM borrowed WHERE borrow_id=?` followed by `fetchone()`. -/
def findLoan (db : DB) (borrow_id : Nat) : Option Loan :=
  db.borrowed.find? (fun l => l.borrow_id == borrow_id)

/-- `SELECT ... FROM users WHERE user_id=?` followed by `fetchone()`. -/
def findUser (db : DB) (user_id : Nat) : Option User :=
  db.users.find? (fun u => u.user_id == user_id)

/-- `SELECT COUNT(*) FROM borrowed WHERE book_id=? AND return_date IS NULL`. -/
def openLoanCountForBook (db : DB) (book_id : Nat) : Nat :=
  db.borrowed.countP (fun l => l.book_id == book_id && l.return_date.isNone)

/-- `SELECT COUNT(*) FROM borrowed WHERE user_id=? AND return_date IS NULL`. -/
def openLoanCountForUser (db : DB) (user_id : Nat) : Nat :=
  db.borrowed.countP (fun l => l.user_id == user_id && l.return_date.isNone)

/-- `SELECT COUNT(*) FROM users WHERE role='admin'`. -/
def adminCount (db : DB) : Nat :=
  db.users.countP (fun u => u.role == "admin")

/-- `init_db`: table creation is a no-op on the model; then the default
admin is seeded when no admin-role user exists, via INSERT OR IGNORE
(ignored when the username "admin" is already taken). -/
def init_db (db : DB) : DB :=
  if adminCount db == 0 then
    if db.users.any (fun u => u.username == "admin") then db
    else
      { db with
          users := db.users ++
            [⟨db.nextUserId, "admin", hash_password "admin123", "admin"⟩],
          nextUserId := db.nextUserId + 1 }
  else db

/-- `register_user`: empty username or password is rejected; a duplicate
username raises `sqlite3.IntegrityError` (UNIQUE constraint), reported as
a failure; otherwise the user row is inserted. -/
def register_user (db : DB) (username password role : String) :
    (Bool × String) × DB :=
  if username = "" ∨ password = "" then
    ((false, "Username and password required"), db)
  else if db.users.any (fun u => u.username == username) then
    ((false, "Username already exists"), db)
  else
    ((true, "User registered"),
     { db with
         users := db.users ++
           [⟨db.nextUserId, username, hash_password password, role⟩],
         nextUserId := db.nextUserId + 1 })

/-- `delete_user_db`: existence, self-delete, active-borrow and
last-admin guards, in the order of the source, then
`DELETE FROM users WHERE user_id=?`. -/
def delete_user_db (db : DB) (user_id_to_delete : Nat)
    (requester_user_id : Option Nat) : (Bool × String) × DB :=
  match db.users.find? (fun u => u.user_id == user_id_to_delete) with
  | none => ((false, "User not found"), db)
  | some target =>
    if (match requester_user_id with
        | some r => user_id_to_delete == r
        | none => false) then
      ((false, "You cannot delete your own account while logged in."), db)
    else if 0 < openLoanCountForUser db user_id_to_delete then
      ((false, "Cannot delete: user has active (unreturned) borrowed books"), db)
    else if target.role == "admin" ∧ adminCount db ≤ 1 then
      ((false, "Cannot delete the last remaining admin"), db)
    else
      ((true, "User deleted successfully"),
       { db with users := db.users.filter (fun u => u.user_id != user_id_to_delete) })

/-- `add_book`: title/author must be non-empty and the quantity positive
(the string-parsing failure branches concern only the text-to-int
conversion and are outside the integer model); the new row gets
`qty_available = qty_total = qty`. -/
def add_book (db : DB) (title author isbn : String) (year : Option Int)
    (qty : Int) : (Bool × String) × DB :=
  if title = "" ∨ author = "" then
    ((false, "Title, author and quantity required"), db)
  else if qty ≤ 0 then
    ((false, "Quantity must be a positive integer"), db)
  else
    ((true, "Book added"),
     { db with
         books := db.books ++
           [⟨db.nextBookId, pyStrip title, pyStrip author, pyStrip isbn,
             year, qty, qty⟩],
         nextBookId := db.nextBookId + 1 })

/-- `update_book`: quantity validation, then
`UPDATE books SET ... WHERE book_id=?` (which touches zero rows when the
id is absent and still reports success). -/
def update_book (db : DB) (book_id : Nat) (title author isbn : String)
    (year : Option Int) (qty_total qty_available : Int) :
    (Bool × String) × DB :=
  if qty_total < 0 ∨ qty_available < 0 ∨ qty_available > qty_total then
    ((false, "Quantities invalid (available <= total, non-negative)"), db)
  else
    ((true, "Book updated"),
     { db with
         books := db.books.map (fun b =>
           if b.book_id == book_id then
             ⟨b.book_id, pyStrip title, pyStrip author, pyStrip isbn, year,
              qty_total, qty_available⟩
           else b) })

/-- `delete_book`: refuse while an open loan references the book,
otherwise `DELETE FROM books WHERE book_id=?` (a no-op reported as
success when the id is absent). -/
def delete_book (db : DB) (book_id : Nat) : (Bool × String) × DB :=
  if 0 < openLoanCountForBook db book_id then
    ((false, "Cannot delete: book currently borrowed"), db)
  else
    ((true, "Book deleted"),
     { db with books := db.books.filter (fun b => b.book_id != book_id) })

/-- `borrow_book`: look the book up, refuse when absent or exhausted,
otherwise insert an open loan due `DEFAULT_LOAN_DAYS` later and run
`UPDATE books SET qty_available = qty_available - 1 WHERE book_id=?`. -/
def borrow_book (db : DB) (user_id book_id : Nat) (now : Nat) :
    (Bool × String) × DB :=
  match db.books.find? (fun b => b.book_id == book_id) with
  | none => ((false, "Book not found"), db)
  | some row =>
    if row.qty_available ≤ 0 then ((false, "No copies available"), db)
    else
      ((true, "Borrowed successfully"),
       { db with
           borrowed := db.borrowed ++
             [⟨db.nextBorrowId, user_id, book_id, now,
               now + DEFAULT_LOAN_DAYS, none⟩],
           books := db.books.map (fun b =>
             if b.book_id == book_id then
               { b with qty_available := b.qty_available - 1 }
             else b),
           nextBorrowId := db.nextBorrowId + 1 })

/-- `return_book`: look the loan up, refuse when absent or already
returned, otherwise stamp `return_date` and run
`UPDATE books SET qty_available = qty_available + 1 WHERE book_id=?`. -/
def return_book (db : DB) (borrow_id : Nat) (now : Nat) :
    (Bool × String) × DB :=
  match db.borrowed.find? (fun l => l.borrow_id == borrow_id) with
  | none => ((false, "Borrow record not found"), db)
  | some row =>
    match row.return_date with
    | some _ => ((false, "Already returned"), db)
    | none =>
      ((true, "Returned successfully"),
       { db with
           borrowed := db.borrowed.map (fun l =>
             if l.borrow_id == borrow_id then { l with return_date := some now }
             else l),
           books := db.books.map (fun b =>
             if b.book_id == row.book_id then
               { b with qty_available := b.qty_available + 1 }
             else b) })

/-- `needle` is a literal prefix of `hay` (used to relate LIKE matching
to plain substring containment). -/
def startsWithL : List Char → List Char → Bool
  | _, [] => true
  | [], _ :: _ => false
  | a :: as, b :: bs => a == b && startsWithL as bs

/-- Literal substring occurrence on character lists. -/
def containsL : List Char → List Char → Bool
  | [], needle => needle.isEmpty
  | h :: t, needle => startsWithL (h :: t) needle || containsL t needle

/-- Fuel-indexed SQLite LIKE matcher on character lists: `%` in the
pattern matches any (possibly empty) sequence, `_` matches exactly one
character, and any other pattern character matches itself.  The fuel
only forces termination; every recursive call shrinks
`pattern length + text length`, so any fuel above that sum gives the
true answer (`likeMatchF_fuel_congr`). -/
def likeMatchF : Nat → List Char → List Char → Bool
  | 0, _, _ => false
  | _ + 1, [], hay => hay.isEmpty
  | fuel + 1, p :: ps, hay =>
    if p == '%' then
      likeMatchF fuel ps hay ||
        (match hay with
         | [] => false
         | _ :: t => likeMatchF fuel (p :: ps) t)
    else
      match hay with
      | [] => false
      | h :: t => (p == '_' || p == h) && likeMatchF fuel ps t

/-- SQLite LIKE with always-sufficient fuel. -/
def likeMatch (pat hay : List Char) : Bool :=
  likeMatchF (pat.length + hay.length + 1) pat hay

/-- `column LIKE ?` with the bound parameter `'%' + kw + '%'` built by
`search_books_db`: the keyword's own `%` and `_` characters act as
wildcards (the query has no ESCAPE clause), and matching is
case-insensitive for ASCII (SQLite's default), modelled by lower-casing
both sides first. -/
def sqlLike (hay kw : String) : Bool :=
  likeMatch ('%' :: (lowerData kw ++ ['%'])) (lowerData hay)

/-- The WHERE clause of `search_books_db`: title, author or isbn LIKE
the wrapped keyword (`IFNULL(isbn,'')` is the stored string itself). -/
def bookMatches (kw : String) (b : Book) : Bool :=
  sqlLike b.title kw || sqlLike b.author kw || sqlLike b.isbn kw

/-- Title order used by `ORDER BY title ASC`. -/
def titleLe (a b : Book) : Prop := a.title ≤ b.title

instance : DecidableRel titleLe := fun a b =>
  inferInstanceAs (Decidable (a.title ≤ b.title))

instance : IsTotal Book titleLe := ⟨fun a b => le_total a.title b.title⟩

instance : IsTrans Book titleLe := ⟨fun _ _ _ h1 h2 => le_trans h1 h2⟩

/-- `search_books_db`: the keyword is stripped, wrapped in `%`, matched
against title, author and isbn, and the hits are ordered by title. -/
def search_books_db (db : DB) (keyword : String) : List Book :=
  List.insertionSort titleLe (db.books.filter (bookMatches (pyStrip keyword)))

/-- A row of the admin borrow listing (join across users and books). -/
structure BorrowedRow where
  borrow_id : Nat
  username : String
  title : String
  borrow_date : Nat
  due_date : Nat
  return_date : Option Nat
deriving DecidableEq, Repr

/-- Borrow-date order used by `ORDER BY b.borrow_date DESC`. -/
def borrowDateGe (a b : BorrowedRow) : Prop := b.borrow_date ≤ a.borrow_date

instance : DecidableRel borrowDateGe := fun a b =>
  inferInstanceAs (Decidable (b.borrow_date ≤ a.borrow_date))

/-- `list_borrowed_all`: INNER JOIN of borrowed with users and books
(a loan whose user or book row is gone yields no output row), ordered by
borrow date descending. -/
def list_borrowed_all (db : DB) : List BorrowedRow :=
  List.insertionSort borrowDateGe
    (db.borrowed.filterMap (fun l =>
      match db.users.find? (fun u => u.user_id == l.user_id),
            db.books.find? (fun b => b.book_id == l.book_id) with
      | some u, some b =>
        some ⟨l.borrow_id, u.username, b.title, l.borrow_date, l.due_date,
              l.return_date⟩
      | _, _ => none))

/-- The catalog-invariant of §3: every book has
`0 ≤ qty_available ≤ qty_total`. -/
def qtyInvariant (db : DB) : Prop :=
  ∀ b ∈ db.books, 0 ≤ b.qty_available ∧ b.qty_available ≤ b.qty_total

instance : DecidablePred qtyInvariant := fun db =>
  inferInstanceAs (Decidable (∀ b ∈ db.books, _ ∧ _))

/-- The ledger-invariant of §3: for every book, `qty_total − qty_available`
equals the number of open loans referencing it. -/
def ledgerInvariant (db : DB) : Prop :=
  ∀ b ∈ db.books,
    b.qty_total - b.qty_available = (openLoanCountForBook db b.book_id : Int)

instance : DecidablePred ledgerInvariant := fun db =>
  inferInstanceAs (Decidable (∀ b ∈ db.books, _ = _))

/-- Primary-key uniqueness of `books.book_id` (SQLite enforces it). -/
def booksNodup (db : DB) : Prop :=
  (db.books.map Book.book_id).Nodup

/-- Primary-key uniqueness of `borrowed.borrow_id`. -/
def loansNodup (db : DB) : Prop :=
  (db.borrowed.map Loan.borrow_id).Nodup

/-- Primary-key uniqueness of `users.user_id`. -/
def usersNodup (db : DB) : Prop :=
  (db.users.map User.user_id).Nodup

instance : DecidablePred booksNodup := fun db =>
  inferInstanceAs (Decidable ((db.books.map Book.book_id).Nodup))

instance : DecidablePred loansNodup := fun db =>
  inferInstanceAs (Decidable ((db.borrowed.map Loan.borrow_id).Nodup))

instance : DecidablePred usersNodup := fun db =>
  inferInstanceAs (Decidable ((db.users.map User.user_id).Nodup))

/-- Folding a list of `(targetId, requesterId)` pairs through
`delete_user_db`, keeping whichever state each call leaves behind. -/
def applyDeletes (db : DB) : List (Nat × Option Nat) → DB
  | [] => db
  | (t, r) :: rest => applyDeletes (delete_user_db db t r).2 rest

/-! ### Concrete databases used by witnesses and counterexamples -/

/-- A one-book record used to exercise the book operations. -/
def duneBook : Book := ⟨1, "Dune", "Herbert", "", none, 2, 2⟩

/-- Catalog holding `duneBook` only, with no users or loans. -/
def duneDB : DB := ⟨[], [duneBook], [], 1, 2, 1⟩

/-- A database with one book and one open loan on it. -/
def loanedDB : DB :=
  ⟨[], [⟨1, "Dune", "Herbert", "", none, 2, 1⟩],
   [⟨1, 4, 1, 50, 64, none⟩], 1, 2, 2⟩

/-- A database with an admin and an ordinary user and no loans. -/
def adminDB : DB :=
  ⟨[⟨1, "admin", hash_password "admin123", "admin"⟩,
    ⟨2, "bob", hash_password "pw", "user"⟩], [], [], 3, 1, 1⟩

/-- Trace step 1: a fresh store after adding a single-copy book. -/
def trace1 : DB := (add_book emptyDB "Dune" "Herbert" "" none 1).2

/-- Trace step 2: user 4 borrows the only copy (one open loan,
`qty_available = 0`). -/
def trace2 : DB := (borrow_book trace1 4 1 10).2

/-- Trace step 3: an administrative update resets the quantities to
`qty_total = 1, qty_available = 1` while the loan is still open — the
input passes validation, so the call succeeds. -/
def trace3 : DB := (update_book trace2 1 "Dune" "Herbert" "" none 1 1).2

/-- Trace step 4: the open loan is returned, pushing `qty_available`
to `2 > qty_total = 1`. -/
def trace4 : DB := (return_book trace3 1 20).2

/-! ### General list lemmas used throughout -/

/-- A successful `find?` splits the list into an unmatched prefix part,
the hit, and a suffix. -/
theorem find?_split {α : Type} {p : α → Bool} {l : List α} {a : α}
    (h : l.find? p = some a) :
    ∃ l₁ l₂, l = l₁ ++ a :: l₂ ∧ (∀ x ∈ l₁, p x = false) := by
  induction l with
  | nil => simp at h
  | cons x xs ih =>
    by_cases hx : p x
    · rw [List.find?_cons_of_pos _ hx] at h
      exact ⟨[], xs, by simp [(Option.some.injEq _ _).mp h.symm], by simp⟩
    · rw [List.find?_cons_of_neg _ (by simpa using hx)] at h
      obtain ⟨l₁, l₂, rfl, hl₁⟩ := ih h
      exact ⟨x :: l₁, l₂, rfl, by
        intro y hy
        rcases List.mem_cons.mp hy with rfl | hy
        · simpa using hx
        · exact hl₁ y hy⟩

/-- `find?` commutes with a map that does not change the predicate. -/
theorem find?_map_comm {α : Type} (f : α → α) (p : α → Bool)
    (hp : ∀ a, p (f a) = p a) (l : List α) :
    (l.map f).find? p = (l.find? p).map f := by
  induction l with
  | nil => rfl
  | cons x xs ih =>
    by_cases hx : p x
    · rw [List.map_cons, List.find?_cons_of_pos _ (by rw [hp]; exact hx),
        List.find?_cons_of_pos _ hx]
      rfl
    · rw [List.map_cons, List.find?_cons_of_neg _ (by rw [hp]; simpa using hx),
        List.find?_cons_of_neg _ (by simpa using hx), ih]

/-- With pairwise-distinct keys, at most one element carries a given key. -/
theorem countP_le_one_of_nodup_map {α β : Type} [DecidableEq β] (f : α → β)
    (l : List α) (h : (l.map f).Nodup) (x : β) :
    l.countP (fun a => f a == x) ≤ 1 := by
  induction l with
  | nil => simp
  | cons a as ih =>
    rw [List.map_cons, List.nodup_cons] at h
    by_cases hx : f a = x
    · rw [List.countP_cons_of_pos _ _ (by simpa using hx)]
      have hzero : as.countP (fun a => f a == x) = 0 := by
        rw [List.countP_eq_zero]
        intro b hb hbx
        exact h.1 (hx ▸ (by simpa using hbx) ▸ List.mem_map_of_mem f hb)
      omega
    · rw [List.countP_cons_of_neg _ _ (by simpa using hx)]
      exact ih h.2

/-! ### C3: borrow semantics -/

/-- C3: `borrow_book` fails with the book-not-found error when no book
has the given id; fails with the no-copies error, leaving the database
unchanged, when `qty_available ≤ 0`; and otherwise reports success,
appends exactly one open loan stamped `now` and due
`now + DEFAULT_LOAN_DAYS`, decrements that book's `qty_available` by
exactly one, and leaves every other book and the user table unchanged. -/
theorem borrow_book_spec (db : DB) (uid bid now : Nat) :
    (findBook db bid = none →
      borrow_book db uid bid now = ((false, "Book not found"), db))
  ∧ (∀ b, findBook db bid = some b → b.qty_available ≤ 0 →
      borrow_book db uid bid now = ((false, "No copies available"), db))
  ∧ (∀ b, findBook db bid = some b → 0 < b.qty_available →
      (borrow_book db uid bid now).1 = (true, "Borrowed successfully")
    ∧ (borrow_book db uid bid now).2.borrowed =
        db.borrowed ++
          [⟨db.nextBorrowId, uid, bid, now, now + DEFAULT_LOAN_DAYS, none⟩]
    ∧ findBook (borrow_book db uid bid now).2 bid =
        some { b with qty_available := b.qty_available - 1 }
    ∧ (∀ bid2, bid2 ≠ bid →
        findBook (borrow_book db uid bid now).2 bid2 = findBook db bid2)
    ∧ (borrow_book db uid bid now).2.users = db.users) := by
  unfold findBook borrow_book
  refine ⟨fun h => by rw [h], fun b h hb => ?_, fun b h hb => ?_⟩
  · rw [h]
    simp [hb]
  · rw [h]
    dsimp only
    rw [if_neg (show ¬b.qty_available ≤ 0 by omega)]
    refine ⟨rfl, rfl, ?_, ?_, rfl⟩
    · have hkey : ∀ x : Book,
          ((if x.book_id == bid then
              { x with qty_available := x.qty_available - 1 } else x).book_id
            == bid) = (x.book_id == bid) := by
        intro x
        by_cases hx : x.book_id == bid <;> simp [hx]
      rw [find?_map_comm _ _ hkey, h, Option.map_some',
        if_pos (List.find?_some h)]
    · intro bid2 hne
      have hkey : ∀ x : Book,
          ((if x.book_id == bid then
              { x with qty_available := x.qty_available - 1 } else x).book_id
            == bid2) = (x.book_id == bid2) := by
        intro x
        by_cases hx : x.book_id == bid <;> simp [hx]
      rw [find?_map_comm _ _ hkey]
      cases hfind : db.books.find? (fun x => x.book_id == bid2) with
      | none => rfl
      | some b2 =>
        have hb2 : b2.book_id = bid2 := by simpa using List.find?_some hfind
        rw [Option.map_some', if_neg (by simp [hb2, hne])]

/-- Witness: the success branch of `borrow_book_spec` at a concrete
database. -/
theorem borrow_book_spec_witness :
    (borrow_book duneDB 7 1 100).1 = (true, "Borrowed successfully")
    ∧ (borrow_book duneDB 7 1 100).2.borrowed =
        duneDB.borrowed ++ [⟨duneDB.nextBorrowId, 7, 1, 100,
          100 + DEFAULT_LOAN_DAYS, none⟩]
    ∧ findBook (borrow_book duneDB 7 1 100).2 1 =
        some { duneBook with qty_available := duneBook.qty_available - 1 }
    ∧ (∀ bid2, bid2 ≠ 1 →
        findBook (borrow_book duneDB 7 1 100).2 bid2 = findBook duneDB bid2)
    ∧ (borrow_book duneDB 7 1 100).2.users = duneDB.users :=
  (borrow_book_spec duneDB 7 1 100).2.2 duneBook rfl (by decide)

/-! ### C4: return semantics -/

/- (the concrete databases live in the definitions section above) -/

/-- C4: `return_book` fails with the record-not-found error when no loan
has the given id, and with the already-returned error, leaving the
database unchanged, when the loan's `return_date` is already set;
otherwise it reports success, stamps `return_date := now` on that loan,
increments the referenced book's `qty_available` by exactly one, leaves
every other loan, every other book and the user table unchanged — and a
second `return_book` on the same id then fails with the already-returned
error without further change. -/
theorem return_book_spec (db : DB) (lid now : Nat) :
    (findLoan db lid = none →
      return_book db lid now = ((false, "Borrow record not found"), db))
  ∧ (∀ ln t, findLoan db lid = some ln → ln.return_date = some t →
      return_book db lid now = ((false, "Already returned"), db))
  ∧ (∀ ln, findLoan db lid = some ln → ln.return_date = none →
      (return_book db lid now).1 = (true, "Returned successfully")
    ∧ findLoan (return_book db lid now).2 lid =
        some { ln with return_date := some now }
    ∧ (∀ lid2, lid2 ≠ lid →
        findLoan (return_book db lid now).2 lid2 = findLoan db lid2)
    ∧ (∀ b, findBook db ln.book_id = some b →
        findBook (return_book db lid now).2 ln.book_id =
          some { b with qty_available := b.qty_available + 1 })
    ∧ (∀ bid2, bid2 ≠ ln.book_id →
        findBook (return_book db lid now).2 bid2 = findBook db bid2)
    ∧ (return_book db lid now).2.users = db.users
    ∧ (∀ now2, return_book (return_book db lid now).2 lid now2 =
        ((false, "Already returned"), (return_book db lid now).2))) := by
  unfold findLoan findBook return_book
  refine ⟨fun h => by rw [h],
    fun ln t h ht => by rw [h]; dsimp only; rw [ht],
    fun ln h hopen => ?_⟩
  rw [h]
  dsimp only
  rw [hopen]
  dsimp only
  have hkeyL : ∀ x : Loan,
      ((if x.borrow_id == lid then { x with return_date := some now }
        else x).borrow_id == lid) = (x.borrow_id == lid) := by
    intro x
    by_cases hx : x.borrow_id == lid <;> simp [hx]
  have hfl : (db.borrowed.map (fun l =>
        if l.borrow_id == lid then { l with return_date := some now }
        else l)).find? (fun l => l.borrow_id == lid) =
      some { ln with return_date := some now } := by
    rw [find?_map_comm _ _ hkeyL, h, Option.map_some',
      if_pos (List.find?_some h)]
  have hkeyB : ∀ x : Book,
      ((if x.book_id == ln.book_id then
          { x with qty_available := x.qty_available + 1 } else x).book_id
        == ln.book_id) = (x.book_id == ln.book_id) := by
    intro x
    by_cases hx : x.book_id == ln.book_id <;> simp [hx]
  refine ⟨rfl, hfl, ?_, ?_, ?_, rfl, ?_⟩
  · intro lid2 hne
    have hkeyL2 : ∀ x : Loan,
        ((if x.borrow_id == lid then { x with return_date := some now }
          else x).borrow_id == lid2) = (x.borrow_id == lid2) := by
      intro x
      by_cases hx : x.borrow_id == lid <;> simp [hx]
    rw [find?_map_comm _ _ hkeyL2]
    cases hfind : db.borrowed.find? (fun l => l.borrow_id == lid2) with
    | none => rfl
    | some l2 =>
      have hl2 : l2.borrow_id = lid2 := by simpa using List.find?_some hfind
      rw [Option.map_some', if_neg (by simp [hl2, hne])]
  · intro b hb
    rw [find?_map_comm _ _ hkeyB, hb, Option.map_some',
      if_pos (List.find?_some hb)]
  · intro bid2 hne
    have hkeyB2 : ∀ x : Book,
        ((if x.book_id == ln.book_id then
            { x with qty_available := x.qty_available + 1 } else x).book_id
          == bid2) = (x.book_id == bid2) := by
      intro x
      by_cases hx : x.book_id == ln.book_id <;> simp [hx]
    rw [find?_map_comm _ _ hkeyB2]
    cases hfind : db.books.find? (fun x => x.book_id == bid2) with
    | none => rfl
    | some b2 =>
      have hb2 : b2.book_id = bid2 := by simpa using List.find?_some hfind
      rw [Option.map_some', if_neg (by simp [hb2, hne])]
  · intro now2
    rw [hfl]

/-- Witness: the success branch of `return_book_spec` at a concrete
database, including the failing second return. -/
theorem return_book_spec_witness :
    (return_book loanedDB 1 90).1 = (true, "Returned successfully")
    ∧ findLoan (return_book loanedDB 1 90).2 1 =
        some { (⟨1, 4, 1, 50, 64, none⟩ : Loan) with return_date := some 90 }
    ∧ (∀ lid2, lid2 ≠ 1 →
        findLoan (return_book loanedDB 1 90).2 lid2 = findLoan loanedDB lid2)
    ∧ (∀ b, findBook loanedDB 1 = some b →
        findBook (return_book loanedDB 1 90).2 1 =
          some { b with qty_available := b.qty_available + 1 })
    ∧ (∀ bid2, bid2 ≠ 1 →
        findBook (return_book loanedDB 1 90).2 bid2 = findBook loanedDB bid2)
    ∧ (return_book loanedDB 1 90).2.users = loanedDB.users
    ∧ (∀ now2, return_book (return_book loanedDB 1 90).2 1 now2 =
        ((false, "Already returned"), (return_book loanedDB 1 90).2)) :=
  (return_book_spec loanedDB 1 90).2.2 ⟨1, 4, 1, 50, 64, none⟩ rfl rfl

/-! ### C5: update semantics -/

/-- A map that fixes every element of a list is the identity on it. -/
theorem map_id_of_fix {α : Type} (f : α → α) (l : List α)
    (h : ∀ a ∈ l, f a = a) : l.map f = l := by
  induction l with
  | nil => rfl
  | cons x xs ih =>
    rw [List.map_cons, h x (List.mem_cons_self x xs),
      ih fun a ha => h a (List.mem_cons_of_mem x ha)]

/-- Counterexample to C5 as stated: updating a book id that does not
exist does not fail with a not-found error — the UPDATE touches zero
rows and the operation still reports success, leaving the store
unchanged. -/
theorem update_book_missing_id_reports_success :
    update_book emptyDB 1 "T" "A" "" none 1 1 =
      ((true, "Book updated"), emptyDB) := rfl

/-- C5 (amended): `update_book` fails with the invalid-quantities error,
leaving the database unchanged, when a quantity is negative or
`qty_available > qty_total`; otherwise it reports success — the book
with the given id, when present, has all its fields overwritten
unconditionally, every other book is unchanged, and a missing id makes
the call a successful no-op (there is no not-found failure). -/
theorem update_book_spec (db : DB) (bid : Nat) (title author isbn : String)
    (year : Option Int) (qt qa : Int) :
    (qt < 0 ∨ qa < 0 ∨ qa > qt →
      update_book db bid title author isbn year qt qa =
        ((false, "Quantities invalid (available <= total, non-negative)"), db))
  ∧ (0 ≤ qt → 0 ≤ qa → qa ≤ qt →
      (update_book db bid title author isbn year qt qa).1 =
        (true, "Book updated")
    ∧ (findBook db bid = none →
        (update_book db bid title author isbn year qt qa).2 = db)
    ∧ (∀ b, findBook db bid = some b →
        findBook (update_book db bid title author isbn year qt qa).2 bid =
          some ⟨b.book_id, pyStrip title, pyStrip author, pyStrip isbn, year, qt, qa⟩)
    ∧ (∀ bid2, bid2 ≠ bid →
        findBook (update_book db bid title author isbn year qt qa).2 bid2 =
          findBook db bid2)
    ∧ (update_book db bid title author isbn year qt qa).2.borrowed =
        db.borrowed
    ∧ (update_book db bid title author isbn year qt qa).2.users = db.users) := by
  unfold update_book findBook
  refine ⟨fun h => by rw [if_pos h], fun h1 h2 h3 => ?_⟩
  rw [if_neg (show ¬(qt < 0 ∨ qa < 0 ∨ qa > qt) by omega)]
  have hkey : ∀ x : Book,
      ((if x.book_id == bid then
          (⟨x.book_id, pyStrip title, pyStrip author, pyStrip isbn, year, qt, qa⟩ : Book)
        else x).book_id == bid) = (x.book_id == bid) := by
    intro x
    by_cases hx : x.book_id == bid <;> simp [hx]
  refine ⟨rfl, ?_, ?_, ?_, rfl, rfl⟩
  · intro h
    have hall := List.find?_eq_none.mp h
    rw [map_id_of_fix _ _ fun b hb =>
      if_neg (by simpa using hall b hb)]
  · intro b hb
    rw [find?_map_comm _ _ hkey, hb, Option.map_some',
      if_pos (List.find?_some hb)]
  · intro bid2 hne
    have hkey2 : ∀ x : Book,
        ((if x.book_id == bid then
            (⟨x.book_id, pyStrip title, pyStrip author, pyStrip isbn, year, qt,
              qa⟩ : Book)
          else x).book_id == bid2) = (x.book_id == bid2) := by
      intro x
      by_cases hx : x.book_id == bid <;> simp [hx]
    rw [find?_map_comm _ _ hkey2]
    cases hfind : db.books.find? (fun x => x.book_id == bid2) with
    | none => rfl
    | some b2 =>
      have hb2 : b2.book_id = bid2 := by simpa using List.find?_some hfind
      rw [Option.map_some', if_neg (by simp [hb2, hne])]

/-- Witness: the overwrite branch of `update_book_spec` at a concrete
database. -/
theorem update_book_spec_witness :
    findBook (update_book duneDB 1 "T" "A" "i" none 3 2).2 1 =
      some ⟨duneBook.book_id, pyStrip "T", pyStrip "A", pyStrip "i", none, 3, 2⟩ :=
  ((update_book_spec duneDB 1 "T" "A" "i" none 3 2).2 (by decide) (by decide)
    (by decide)).2.2.1 duneBook rfl

/-! ### C6: delete-book semantics -/

/-- `find?` ignores a filter that keeps every element the search could
return. -/
theorem find?_filter_of_imp {α : Type} (p q : α → Bool) (l : List α)
    (h : ∀ a, p a = true → q a = true) :
    (l.filter q).find? p = l.find? p := by
  induction l with
  | nil => rfl
  | cons x xs ih =>
    by_cases hq : q x
    · rw [List.filter_cons_of_pos hq]
      by_cases hp : p x
      · rw [List.find?_cons_of_pos _ hp, List.find?_cons_of_pos _ hp]
      · rw [List.find?_cons_of_neg _ (by simpa using hp),
          List.find?_cons_of_neg _ (by simpa using hp), ih]
    · have hp : ¬p x = true := fun hc => hq (h x hc)
      rw [List.filter_cons_of_neg (by simpa using hq),
        List.find?_cons_of_neg _ (by simpa using hp), ih]

/-- Counterexample to C6 as stated: deleting a book id that does not
exist does not fail with a not-found error — the DELETE touches zero
rows and the operation still reports success, leaving the store
unchanged. -/
theorem delete_book_missing_id_reports_success :
    delete_book emptyDB 1 = ((true, "Book deleted"), emptyDB) := rfl

/-- C6 (amended): `delete_book` fails with the currently-borrowed error
exactly when an open loan references the book, leaving the database
unchanged; otherwise it reports success, removes the book with that id
when present, and leaves every other book, the loans and the users
unchanged — a missing id is a successful no-op (there is no not-found
failure). -/
theorem delete_book_spec (db : DB) (bid : Nat) :
    ((delete_book db bid).1 =
        (false, "Cannot delete: book currently borrowed") ↔
      0 < openLoanCountForBook db bid)
  ∧ (0 < openLoanCountForBook db bid →
      delete_book db bid = ((false, "Cannot delete: book currently borrowed"), db))
  ∧ (openLoanCountForBook db bid = 0 →
      (delete_book db bid).1 = (true, "Book deleted")
    ∧ findBook (delete_book db bid).2 bid = none
    ∧ (∀ bid2, bid2 ≠ bid →
        findBook (delete_book db bid).2 bid2 = findBook db bid2)
    ∧ (delete_book db bid).2.borrowed = db.borrowed
    ∧ (delete_book db bid).2.users = db.users) := by
  unfold delete_book findBook
  by_cases hcnt : 0 < openLoanCountForBook db bid
  · rw [if_pos hcnt]
    exact ⟨by simp [hcnt], fun _ => rfl, fun h0 => absurd h0 (by omega)⟩
  · rw [if_neg hcnt]
    refine ⟨by simp [hcnt], fun h => absurd h hcnt, fun h0 => ?_⟩
    refine ⟨rfl, ?_, ?_, rfl, rfl⟩
    · rw [List.find?_eq_none]
      intro a ha hpa
      have := (List.mem_filter.mp ha).2
      simp at this hpa
      exact this hpa
    · intro bid2 hne
      exact find?_filter_of_imp _ _ _ fun a hpa => by
        have : a.book_id = bid2 := by simpa using hpa
        simp [this, hne]

/-- Witness: the open-loan refusal branch of `delete_book_spec` at a
concrete database. -/
theorem delete_book_spec_witness :
    delete_book loanedDB 1 =
      ((false, "Cannot delete: book currently borrowed"), loanedDB) :=
  (delete_book_spec loanedDB 1).2.1 (by decide)

/-! ### C7: delete-user guard precedence -/

/-- C7: `delete_user_db` checks its guards in exactly the source's
order — a missing target fails first with the not-found error; then a
target equal to the requester fails with the self-delete error; then any
open loan of the target fails with the active-borrows error; then an
admin target with at most one admin in the store fails with the
last-admin error; only when all four guards pass is the user row
removed, and every failure leaves the database unchanged. -/
theorem delete_user_db_spec (db : DB) (target r : Nat) :
    (findUser db target = none →
      delete_user_db db target (some r) = ((false, "User not found"), db))
  ∧ (∀ t, findUser db target = some t → target = r →
      delete_user_db db target (some r) =
        ((false, "You cannot delete your own account while logged in."), db))
  ∧ (∀ t, findUser db target = some t → target ≠ r →
      0 < openLoanCountForUser db target →
      delete_user_db db target (some r) =
        ((false, "Cannot delete: user has active (unreturned) borrowed books"),
         db))
  ∧ (∀ t, findUser db target = some t → target ≠ r →
      openLoanCountForUser db target = 0 →
      t.role = "admin" → adminCount db ≤ 1 →
      delete_user_db db target (some r) =
        ((false, "Cannot delete the last remaining admin"), db))
  ∧ (∀ t, findUser db target = some t → target ≠ r →
      openLoanCountForUser db target = 0 →
      ¬(t.role = "admin" ∧ adminCount db ≤ 1) →
      delete_user_db db target (some r) =
        ((true, "User deleted successfully"),
         { db with
             users := db.users.filter (fun u => u.user_id != target) })) := by
  unfold findUser delete_user_db
  refine ⟨fun h => by rw [h], fun t h heq => ?_, fun t h hne hloan => ?_,
    fun t h hne hloan hrole hcnt => ?_, fun t h hne hloan hguard => ?_⟩
  · rw [h]
    dsimp only
    rw [if_pos (by simpa using heq)]
  · rw [h]
    dsimp only
    rw [if_neg (by simpa using hne), if_pos hloan]
  · rw [h]
    dsimp only
    rw [if_neg (by simpa using hne),
      if_neg (show ¬0 < openLoanCountForUser db target by omega),
      if_pos ⟨by simpa using hrole, hcnt⟩]
  · rw [h]
    dsimp only
    rw [if_neg (by simpa using hne),
      if_neg (show ¬0 < openLoanCountForUser db target by omega),
      if_neg (by simpa using hguard)]

/-- Witness: the committed-deletion branch of `delete_user_db_spec` at a
concrete database. -/
theorem delete_user_db_spec_witness :
    delete_user_db adminDB 2 (some 1) =
      ((true, "User deleted successfully"),
       { adminDB with
           users := adminDB.users.filter (fun u => u.user_id != 2) }) :=
  (delete_user_db_spec adminDB 2 1).2.2.2.2
    ⟨2, "bob", hash_password "pw", "user"⟩ rfl (by decide) rfl (by decide)

/-! ### C8: the store never loses its last admin -/

/-- Splitting a count along a second predicate. -/
theorem countP_split {α : Type} (p q : α → Bool) (l : List α) :
    l.countP p =
      l.countP (fun a => p a && q a) + l.countP (fun a => p a && !q a) := by
  induction l with
  | nil => simp
  | cons x xs ih =>
    by_cases hp : p x <;> by_cases hq : q x <;>
      simp [List.countP_cons, hp, hq, ih] <;> omega

/-- Any single `delete_user_db` call — successful or failed, whatever
the requester — keeps the user ids pairwise distinct and keeps at least
one admin in the store. -/
theorem delete_user_db_preserves_admin (db : DB) (t : Nat) (r : Option Nat)
    (hnd : usersNodup db) (hadm : 1 ≤ adminCount db) :
    usersNodup (delete_user_db db t r).2 ∧
      1 ≤ adminCount (delete_user_db db t r).2 := by
  unfold delete_user_db
  cases hfind : db.users.find? (fun u => u.user_id == t) with
  | none => exact ⟨hnd, hadm⟩
  | some target =>
    dsimp only
    split
    · exact ⟨hnd, hadm⟩
    · split
      · exact ⟨hnd, hadm⟩
      · split
        · exact ⟨hnd, hadm⟩
        · rename_i hguard
          constructor
          · exact List.Nodup.sublist
              (List.Sublist.map _ (List.filter_sublist _)) hnd
          · show 1 ≤ List.countP (fun u => u.role == "admin")
              (db.users.filter (fun u => u.user_id != t))
            rw [List.countP_filter]
            show 1 ≤ List.countP
              (fun u => (u.role == "admin") && !(u.user_id == t)) db.users
            have hadm2 : 1 ≤ List.countP (fun u => u.role == "admin")
                db.users := hadm
            have hsplit := countP_split (fun u => u.role == "admin")
              (fun u => u.user_id == t) db.users
            by_cases htr : target.role = "admin"
            · have hbig : 2 ≤ List.countP (fun u => u.role == "admin")
                  db.users := by
                have : ¬adminCount db ≤ 1 := fun hle =>
                  hguard ⟨by simpa using htr, hle⟩
                have h2 : ¬List.countP (fun u => u.role == "admin")
                    db.users ≤ 1 := this
                omega
              have hK : List.countP
                  (fun u => (u.role == "admin") && (u.user_id == t))
                  db.users ≤ 1 := by
                have h1 : List.countP
                    (fun u => (u.role == "admin") && (u.user_id == t))
                    db.users ≤
                    List.countP (fun u => u.user_id == t) db.users :=
                  List.countP_mono_left fun u _ h => by
                    rw [Bool.and_eq_true] at h
                    exact h.2
                have h2 : List.countP (fun u => u.user_id == t) db.users ≤ 1 :=
                  countP_le_one_of_nodup_map User.user_id db.users hnd t
                omega
              omega
            · have hK0 : List.countP
                  (fun u => (u.role == "admin") && (u.user_id == t))
                  db.users = 0 := by
                rw [List.countP_eq_zero]
                intro u hu hpu
                have hp : u.role = "admin" ∧ u.user_id = t := by
                  simpa using hpu
                have htmem : target ∈ db.users :=
                  List.mem_of_find?_eq_some hfind
                have htid : target.user_id = t := by
                  simpa using List.find?_some hfind
                have : u = target :=
                  List.inj_on_of_nodup_map hnd hu htmem
                    (by rw [hp.2, htid])
                exact htr (this ▸ hp.1)
              omega

/-- C8: initializing a fresh store seeds exactly one admin, and after
any sequence of `delete_user_db` calls (each one leaving whatever state
it produced, successful or not) at least one admin-role user remains. -/
theorem init_and_deletes_keep_admin :
    adminCount (init_db emptyDB) = 1
  ∧ ∀ ops : List (Nat × Option Nat),
      1 ≤ adminCount (applyDeletes (init_db emptyDB) ops) := by
  have hgen : ∀ (ops : List (Nat × Option Nat)) (db : DB),
      usersNodup db → 1 ≤ adminCount db →
      1 ≤ adminCount (applyDeletes db ops) := by
    intro ops
    induction ops with
    | nil => intro db _ h2; exact h2
    | cons hd tl ih =>
      intro db h1 h2
      obtain ⟨t, r⟩ := hd
      obtain ⟨h1', h2'⟩ := delete_user_db_preserves_admin db t r h1 h2
      simpa only [applyDeletes] using ih _ h1' h2'
  exact ⟨by decide, fun ops => hgen ops (init_db emptyDB) (by decide) (by decide)⟩

/-! ### C9: keyword search -/

/-- The empty needle occurs in every haystack. -/
theorem containsL_nil (l : List Char) : containsL l [] = true := by
  cases l <;> rfl

/-- An empty haystack starts with `p` exactly when `p` is empty. -/
theorem startsWithL_nil_left (p : List Char) :
    startsWithL [] p = p.isEmpty := by
  cases p <;> rfl

/-- A wildcard-free pattern followed by `%` accepts exactly the texts
that start with the pattern read literally. -/
theorem likeMatchF_append_percent :
    ∀ (p : List Char),
      (∀ c ∈ p, (c == '%') = false ∧ (c == '_') = false) →
    ∀ (f : Nat) (hay : List Char), p.length + hay.length + 1 < f →
      likeMatchF f (p ++ ['%']) hay = startsWithL hay p := by
  intro p
  induction p with
  | nil =>
    intro _ f hay
    simp only [List.nil_append]
    induction hay generalizing f with
    | nil =>
      intro hf
      cases f with
      | zero => omega
      | succ f1 =>
        cases f1 with
        | zero => omega
        | succ f2 =>
          show likeMatchF (f2 + 1 + 1) ['%'] [] = startsWithL [] []
          rfl
    | cons h t iht =>
      intro hf
      cases f with
      | zero => omega
      | succ f1 =>
        cases f1 with
        | zero => omega
        | succ f2 =>
          have ht : likeMatchF (f2 + 1) ['%'] t = startsWithL t [] :=
            iht (f2 + 1) (by simp at hf ⊢; omega)
          have hstep : likeMatchF (f2 + 1 + 1) ['%'] (h :: t) =
              (likeMatchF (f2 + 1) [] (h :: t) ||
                likeMatchF (f2 + 1) ['%'] t) := rfl
          rw [hstep, ht]
          simp [startsWithL]
  | cons c cs ihp =>
    intro hp f hay hf
    have hc := hp c (List.mem_cons_self c cs)
    cases f with
    | zero => omega
    | succ f1 =>
      simp only [List.cons_append, likeMatchF]
      rw [if_neg (by simp [hc.1])]
      cases hay with
      | nil => simp [startsWithL]
      | cons h t =>
        dsimp only
        simp only [List.append_eq]
        rw [ihp (fun x hx => hp x (List.mem_cons_of_mem c hx)) f1 t
          (by simp at hf ⊢; omega)]
        have hcomm : (c == h) = (h == c) := by
          by_cases he : c = h
          · subst he; rfl
          · have h1 : (c == h) = false := by simpa using he
            have h2 : (h == c) = false := by simpa using fun e => he e.symm
            rw [h1, h2]
        simp [startsWithL, hc.2, hcomm]

/-- The full `'%' + p + '%'` LIKE pattern, for wildcard-free `p`,
accepts exactly the texts containing `p` as a literal substring. -/
theorem likeMatchF_wrapped {p : List Char}
    (hp : ∀ c ∈ p, (c == '%') = false ∧ (c == '_') = false) :
    ∀ (f : Nat) (hay : List Char), p.length + hay.length + 2 < f →
      likeMatchF f ('%' :: (p ++ ['%'])) hay = containsL hay p := by
  intro f hay
  induction hay generalizing f with
  | nil =>
    intro hf
    cases f with
    | zero => omega
    | succ f1 =>
      simp only [likeMatchF]
      rw [if_pos (show ('%' == '%') = true from rfl),
        likeMatchF_append_percent p hp f1 [] (by simp at hf ⊢; omega)]
      simp [startsWithL_nil_left, containsL]
  | cons h t iht =>
    intro hf
    cases f with
    | zero => omega
    | succ f1 =>
      simp only [likeMatchF]
      rw [if_pos (show ('%' == '%') = true from rfl),
        likeMatchF_append_percent p hp f1 (h :: t) (by simp at hf ⊢; omega),
        iht f1 (by simp at hf ⊢; omega)]
      rfl

/-- For keywords free of the LIKE wildcards `%` and `_`, the LIKE test
built by `search_books_db` is exactly case-insensitive substring
containment. -/
theorem sqlLike_eq_containsL (s t : String)
    (hp : ∀ c ∈ lowerData t, (c == '%') = false ∧ (c == '_') = false) :
    sqlLike s t = containsL (lowerData s) (lowerData t) := by
  unfold sqlLike likeMatch
  exact likeMatchF_wrapped hp _ _
    (by simp only [List.length_cons, List.length_append]; omega)

/-- Every book matches the empty keyword: the bound parameter becomes
the bare pattern `'%%'`, which LIKE satisfies on every row. -/
theorem bookMatches_empty (b : Book) : bookMatches "" b = true := by
  have h : ∀ s : String, sqlLike s "" = true := by
    intro s
    rw [sqlLike_eq_containsL s "" (by
      intro c hc
      rw [show lowerData "" = [] from rfl] at hc
      exact absurd hc (List.not_mem_nil c))]
    rw [show lowerData "" = [] from rfl, containsL_nil]
  unfold bookMatches
  simp [h]

/-- Counterexample to C9 as stated, twice over: the empty keyword does
not match nothing (the pattern `'%%'` accepts every row, so the whole
catalog comes back), and the keyword consisting of the single character
`_` returns Dune although none of Dune's fields contains `_` as a
substring — inside the bound pattern `'%_%'` the underscore is a
single-character wildcard, not a literal. -/
theorem search_books_db_counterexample :
    search_books_db duneDB "" = [duneBook]
  ∧ search_books_db duneDB "_" = [duneBook]
  ∧ containsL (lowerData duneBook.title) (lowerData "_") = false
  ∧ containsL (lowerData duneBook.author) (lowerData "_") = false
  ∧ containsL (lowerData duneBook.isbn) (lowerData "_") = false := by decide

/-- C9 (amended): `search_books_db` returns exactly the books whose
title, author or isbn matches the SQLite LIKE pattern
`'%' + stripped keyword + '%'` (where the keyword's own `%` and `_` act
as wildcards), ordered by title ascending; for keywords containing no
wildcard character this is exactly case-insensitive substring
containment in one of the three fields; and the empty keyword matches
every book rather than none. -/
theorem search_books_db_spec (db : DB) (kw : String) :
    (∀ b, b ∈ search_books_db db kw ↔
      b ∈ db.books ∧ bookMatches (pyStrip kw) b = true)
  ∧ List.Sorted titleLe (search_books_db db kw)
  ∧ ((∀ c ∈ lowerData (pyStrip kw),
        (c == '%') = false ∧ (c == '_') = false) →
      ∀ b, b ∈ search_books_db db kw ↔
        b ∈ db.books ∧
        (containsL (lowerData b.title) (lowerData (pyStrip kw))
         || containsL (lowerData b.author) (lowerData (pyStrip kw))
         || containsL (lowerData b.isbn) (lowerData (pyStrip kw))) = true)
  ∧ (∀ b, b ∈ search_books_db db "" ↔ b ∈ db.books) := by
  have hmem : ∀ (k : String) (b : Book),
      b ∈ search_books_db db k ↔
        b ∈ db.books ∧ bookMatches (pyStrip k) b = true := by
    intro k b
    unfold search_books_db
    rw [(List.perm_insertionSort titleLe _).mem_iff, List.mem_filter]
  refine ⟨hmem kw, List.sorted_insertionSort titleLe _,
    fun hp b => ?_, fun b => ?_⟩
  · rw [hmem kw b]
    have hbm : bookMatches (pyStrip kw) b =
        (containsL (lowerData b.title) (lowerData (pyStrip kw))
         || containsL (lowerData b.author) (lowerData (pyStrip kw))
         || containsL (lowerData b.isbn) (lowerData (pyStrip kw))) := by
      unfold bookMatches
      rw [sqlLike_eq_containsL _ _ hp, sqlLike_eq_containsL _ _ hp,
        sqlLike_eq_containsL _ _ hp]
    rw [hbm]
  · rw [hmem "" b]
    simp [show pyStrip "" = "" by decide, bookMatches_empty]

/-- Witness: the wildcard-free branch of `search_books_db_spec` at a
concrete database and keyword. -/
theorem search_books_db_spec_witness :
    duneBook ∈ search_books_db duneDB "dune" ↔
      duneBook ∈ duneDB.books ∧
      (containsL (lowerData duneBook.title) (lowerData (pyStrip "dune"))
       || containsL (lowerData duneBook.author) (lowerData (pyStrip "dune"))
       || containsL (lowerData duneBook.isbn)
            (lowerData (pyStrip "dune"))) = true :=
  (search_books_db_spec duneDB "dune").2.2.1 (by decide) duneBook

/-! ### C1: the quantity-bounds invariant -/

/-- Counterexample to C1 as stated: starting from a fresh store, add a
one-copy book, borrow it, let an administrative update reset the
quantities to `qty_total = qty_available = 1` (valid input, so it
succeeds) while the loan is still open, and return the loan — every
operation succeeds, yet afterwards the book has
`qty_available = 2 > qty_total = 1`. -/
theorem qty_invariant_broken_by_update_then_return :
    (add_book emptyDB "Dune" "Herbert" "" none 1).1 = (true, "Book added")
  ∧ (borrow_book trace1 4 1 10).1 = (true, "Borrowed successfully")
  ∧ (update_book trace2 1 "Dune" "Herbert" "" none 1 1).1 =
      (true, "Book updated")
  ∧ (return_book trace3 1 20).1 = (true, "Returned successfully")
  ∧ qtyInvariant trace3
  ∧ ¬qtyInvariant trace4 := by decide

/-- C1 (amended): on a store with distinct book ids, add, update,
delete, register, deleteUser and borrow each preserve
`0 ≤ qty_available ≤ qty_total` for every book; return preserves it too
provided the open-loan accounting equality (`ledgerInvariant`) holds when
it runs — after an administrative update that resets the quantities while
loans stay open, that proviso can fail and a return then pushes
`qty_available` above `qty_total`. -/
theorem qty_invariant_preservation (db : DB) (hnd : booksNodup db)
    (hinv : qtyInvariant db) :
    (∀ t a i y q, qtyInvariant (add_book db t a i y q).2)
  ∧ (∀ bid t a i y qt qa, qtyInvariant (update_book db bid t a i y qt qa).2)
  ∧ (∀ bid, qtyInvariant (delete_book db bid).2)
  ∧ (∀ u p ro, qtyInvariant (register_user db u p ro).2)
  ∧ (∀ t r, qtyInvariant (delete_user_db db t r).2)
  ∧ (∀ uid bid now, qtyInvariant (borrow_book db uid bid now).2)
  ∧ (∀ lid now, ledgerInvariant db →
      qtyInvariant (return_book db lid now).2) := by
  refine ⟨?_, ?_, ?_, ?_, ?_, ?_, ?_⟩
  · intro t a i y q
    unfold add_book
    split
    · exact hinv
    split
    · exact hinv
    rename_i hqty
    intro b hb
    rcases List.mem_append.mp hb with h | h
    · exact hinv b h
    · have hb' : b = ⟨db.nextBookId, pyStrip t, pyStrip a, pyStrip i,
          y, q, q⟩ := by simpa using h
      subst hb'
      dsimp only
      omega
  · intro bid t a i y qt qa
    unfold update_book
    split
    · exact hinv
    rename_i hvalid
    intro b hb
    obtain ⟨x, hx, rfl⟩ := List.mem_map.mp hb
    by_cases hxb : (x.book_id == bid) = true
    · rw [if_pos hxb]
      dsimp only
      omega
    · rw [if_neg hxb]
      exact hinv x hx
  · intro bid
    unfold delete_book
    split
    · exact hinv
    intro b hb
    exact hinv b (List.mem_filter.mp hb).1
  · intro u p ro
    unfold register_user
    split
    · exact hinv
    split
    · exact hinv
    · exact hinv
  · intro t r
    unfold delete_user_db
    cases hfind : db.users.find? (fun u => u.user_id == t) with
    | none => exact hinv
    | some target =>
      dsimp only
      split
      · exact hinv
      split
      · exact hinv
      split
      · exact hinv
      · exact hinv
  · intro uid bid now
    unfold borrow_book
    cases hfind : db.books.find? (fun b => b.book_id == bid) with
    | none => exact hinv
    | some row =>
      dsimp only
      split
      · exact hinv
      rename_i hpos
      intro b hb
      obtain ⟨x, hx, rfl⟩ := List.mem_map.mp hb
      by_cases hxb : (x.book_id == bid) = true
      · rw [if_pos hxb]
        have hrmem : row ∈ db.books := List.mem_of_find?_eq_some hfind
        have hrid : row.book_id = bid := by simpa using List.find?_some hfind
        have hxrow : x = row := List.inj_on_of_nodup_map hnd hx hrmem
          (by rw [hrid]; simpa using hxb)
        have hxbounds := hinv x hx
        dsimp only
        subst hxrow
        omega
      · rw [if_neg hxb]
        exact hinv x hx
  · intro lid now hledger
    unfold return_book
    cases hfind : db.borrowed.find? (fun l => l.borrow_id == lid) with
    | none => exact hinv
    | some row =>
      dsimp only
      cases hret : row.return_date with
      | some t0 => exact hinv
      | none =>
        dsimp only
        intro b hb
        obtain ⟨x, hx, rfl⟩ := List.mem_map.mp hb
        by_cases hxb : (x.book_id == row.book_id) = true
        · rw [if_pos hxb]
          have hxid : x.book_id = row.book_id := by simpa using hxb
          have hone : 0 < openLoanCountForBook db x.book_id := by
            unfold openLoanCountForBook
            rw [List.countP_pos_iff]
            exact ⟨row, List.mem_of_find?_eq_some hfind,
              by simp [hxid, hret]⟩
          have hledg := hledger x hx
          have hbounds := hinv x hx
          dsimp only
          omega
        · rw [if_neg hxb]
          exact hinv x hx

/-- Witness: `qty_invariant_preservation` at a concrete database whose
ledger is in sync, exercising the return branch. -/
theorem qty_invariant_preservation_witness :
    qtyInvariant (return_book loanedDB 1 99).2 :=
  (qty_invariant_preservation loanedDB (by decide) (by decide)).2.2.2.2.2.2
    1 99 (by decide)

/-! ### C2: the open-loan accounting invariant -/

/-- Counterexample to C2 as stated: with one open loan on a one-copy
book, the accounting equality holds, but a successful administrative
update that sets `qty_total = qty_available = 1` makes
`qty_total − qty_available = 0` while the open loan still counts `1` —
`update_book` does not preserve the equality. -/
theorem ledger_invariant_broken_by_update :
    ledgerInvariant trace2
  ∧ (update_book trace2 1 "Dune" "Herbert" "" none 1 1).1 =
      (true, "Book updated")
  ∧ ¬ledgerInvariant trace3 := by decide

/-- C2 (amended): on a store with distinct loan ids where loans only
reference already-allocated book ids, every operation except
`update_book` — add, delete, register, deleteUser, borrow and return —
preserves the equality between `qty_total − qty_available` and the
open-loan count of each book; `update_book` may set the quantities to
any valid values and thereby break it. -/
theorem ledger_invariant_preservation (db : DB)
    (hfresh : ∀ l ∈ db.borrowed, l.book_id < db.nextBookId)
    (hnd : loansNodup db) (hledger : ledgerInvariant db) :
    (∀ t a i y q, ledgerInvariant (add_book db t a i y q).2)
  ∧ (∀ bid, ledgerInvariant (delete_book db bid).2)
  ∧ (∀ u p ro, ledgerInvariant (register_user db u p ro).2)
  ∧ (∀ t r, ledgerInvariant (delete_user_db db t r).2)
  ∧ (∀ uid bid now, ledgerInvariant (borrow_book db uid bid now).2)
  ∧ (∀ lid now, ledgerInvariant (return_book db lid now).2) := by
  refine ⟨?_, ?_, ?_, ?_, ?_, ?_⟩
  · intro t a i y q
    unfold add_book
    split
    · exact hledger
    split
    · exact hledger
    intro b hb
    rcases List.mem_append.mp hb with h | h
    · exact hledger b h
    · have hb' : b = ⟨db.nextBookId, pyStrip t, pyStrip a, pyStrip i,
          y, q, q⟩ := by simpa using h
      subst hb'
      show (q : Int) - q =
        ↑(db.borrowed.countP
          (fun l => l.book_id == db.nextBookId && l.return_date.isNone))
      have h0 : db.borrowed.countP
          (fun l => l.book_id == db.nextBookId && l.return_date.isNone) = 0 :=
        List.countP_eq_zero.mpr fun l hl h => by
          rw [Bool.and_eq_true] at h
          have h1 : l.book_id = db.nextBookId := by simpa using h.1
          have h2 := hfresh l hl
          omega
      rw [h0]
      simp
  · intro bid
    unfold delete_book
    split
    · exact hledger
    intro b hb
    exact hledger b (List.mem_filter.mp hb).1
  · intro u p ro
    unfold register_user
    split
    · exact hledger
    split
    · exact hledger
    · exact hledger
  · intro t r
    unfold delete_user_db
    cases hfind : db.users.find? (fun u => u.user_id == t) with
    | none => exact hledger
    | some target =>
      dsimp only
      split
      · exact hledger
      split
      · exact hledger
      split
      · exact hledger
      · exact hledger
  · intro uid bid now
    unfold borrow_book
    cases hfind : db.books.find? (fun b => b.book_id == bid) with
    | none => exact hledger
    | some row =>
      dsimp only
      split
      · exact hledger
      intro b hb
      obtain ⟨x, hx, rfl⟩ := List.mem_map.mp hb
      have hlx := hledger x hx
      unfold openLoanCountForBook at hlx
      by_cases hxb : (x.book_id == bid) = true
      · have hxid : x.book_id = bid := by simpa using hxb
        rw [if_pos hxb]
        unfold openLoanCountForBook
        dsimp only
        rw [List.countP_append]
        have hone : List.countP
            (fun l => l.book_id == x.book_id && l.return_date.isNone)
            ([⟨db.nextBorrowId, uid, bid, now,
              now + DEFAULT_LOAN_DAYS, none⟩] : List Loan) = 1 := by
          simp [hxid]
        rw [hone]
        omega
      · rw [if_neg hxb]
        unfold openLoanCountForBook
        dsimp only
        rw [List.countP_append]
        have hzero : List.countP
            (fun l => l.book_id == x.book_id && l.return_date.isNone)
            ([⟨db.nextBorrowId, uid, bid, now,
              now + DEFAULT_LOAN_DAYS, none⟩] : List Loan) = 0 := by
          have hne : (bid == x.book_id) = false := by
            simp only [beq_eq_false_iff_ne]
            intro e
            exact hxb (by simp [e])
          simp [hne]
        rw [hzero]
        omega
  · intro lid now
    unfold return_book
    cases hfind : db.borrowed.find? (fun l => l.borrow_id == lid) with
    | none => exact hledger
    | some row =>
      dsimp only
      cases hret : row.return_date with
      | some t0 => exact hledger
      | none =>
        dsimp only
        obtain ⟨L1, L2, hsp, hL1⟩ := find?_split hfind
        have hrowid : row.borrow_id = lid := by
          simpa using List.find?_some hfind
        have hnd2 : row.borrow_id ∉ L2.map Loan.borrow_id := by
          have h := hnd
          unfold loansNodup at h
          rw [hsp, List.map_append, List.map_cons] at h
          exact (List.nodup_cons.mp (List.Nodup.of_append_right h)).1
        have hndL2 : ∀ x ∈ L2, (x.borrow_id == lid) = false := by
          intro x hx
          simp only [beq_eq_false_iff_ne]
          intro heq
          exact hnd2 (by
            rw [hrowid, ← heq]
            exact List.mem_map_of_mem Loan.borrow_id hx)
        have hmapg : db.borrowed.map (fun l =>
              if l.borrow_id == lid then { l with return_date := some now }
              else l) =
            L1 ++ { row with return_date := some now } :: L2 := by
          rw [hsp, List.map_append, List.map_cons]
          rw [map_id_of_fix _ _ fun x hx => if_neg (by simp [hL1 x hx])]
          rw [if_pos (by simpa using hrowid)]
          rw [map_id_of_fix _ _ fun x hx => if_neg (by simp [hndL2 x hx])]
        intro b hb
        obtain ⟨x, hx, rfl⟩ := List.mem_map.mp hb
        have hlx := hledger x hx
        unfold openLoanCountForBook at hlx
        rw [hsp] at hlx
        by_cases hxb : (x.book_id == row.book_id) = true
        · have hxid : x.book_id = row.book_id := by simpa using hxb
          have hL : List.countP
              (fun l => l.book_id == x.book_id && l.return_date.isNone)
              (L1 ++ row :: L2) =
              List.countP
                (fun l => l.book_id == x.book_id && l.return_date.isNone) L1 +
              (List.countP
                (fun l => l.book_id == x.book_id && l.return_date.isNone) L2 +
               1) := by
            simp [List.countP_append, hret, hxid]
          have hR : List.countP
              (fun l => l.book_id == x.book_id && l.return_date.isNone)
              (L1 ++ { row with return_date := some now } :: L2) =
              List.countP
                (fun l => l.book_id == x.book_id && l.return_date.isNone) L1 +
              List.countP
                (fun l => l.book_id == x.book_id && l.return_date.isNone) L2 := by
            simp [List.countP_append]
          rw [hL] at hlx
          rw [if_pos hxb]
          unfold openLoanCountForBook
          dsimp only
          rw [hmapg, hR]
          omega
        · have hne : (row.book_id == x.book_id) = false := by
            simp only [beq_eq_false_iff_ne]
            intro e
            exact hxb (by simp [e])
          have hL : List.countP
              (fun l => l.book_id == x.book_id && l.return_date.isNone)
              (L1 ++ row :: L2) =
              List.countP
                (fun l => l.book_id == x.book_id && l.return_date.isNone) L1 +
              List.countP
                (fun l => l.book_id == x.book_id && l.return_date.isNone) L2 := by
            simp [List.countP_append, hne]
          have hR : List.countP
              (fun l => l.book_id == x.book_id && l.return_date.isNone)
              (L1 ++ { row with return_date := some now } :: L2) =
              List.countP
                (fun l => l.book_id == x.book_id && l.return_date.isNone) L1 +
              List.countP
                (fun l => l.book_id == x.book_id && l.return_date.isNone) L2 := by
            simp [List.countP_append, hne]
          rw [hL] at hlx
          rw [if_neg hxb]
          unfold openLoanCountForBook
          dsimp only
          rw [hmapg, hR]
          omega

/-- Witness: `ledger_invariant_preservation` at a concrete in-sync
database, exercising the return branch. -/
theorem ledger_invariant_preservation_witness :
    ledgerInvariant (return_book loanedDB 1 99).2 :=
  (ledger_invariant_preservation loanedDB (by decide) (by decide)
    (by decide)).2.2.2.2.2 1 99

/-! ### C10: loan records persist; the admin join view hides orphans -/

/-- C10: no core operation removes a loan record — every loan survives
add, update, delete-book, register, deleteUser and borrow unchanged, and
a return keeps a record with the same loan id; a successful deleteUser
removes exactly the target's user row, leaving books and loans (closed
ones included) in place; and every row of the admin listing comes from a
loan whose user row and book row both still exist, so loans of a deleted
user no longer appear there. -/
theorem loan_records_persist_spec (db : DB) :
    (∀ t a i y q, ∀ l ∈ db.borrowed, l ∈ (add_book db t a i y q).2.borrowed)
  ∧ (∀ bid t a i y qt qa, ∀ l ∈ db.borrowed,
      l ∈ (update_book db bid t a i y qt qa).2.borrowed)
  ∧ (∀ bid, ∀ l ∈ db.borrowed, l ∈ (delete_book db bid).2.borrowed)
  ∧ (∀ u p ro, ∀ l ∈ db.borrowed, l ∈ (register_user db u p ro).2.borrowed)
  ∧ (∀ t r, ∀ l ∈ db.borrowed, l ∈ (delete_user_db db t r).2.borrowed)
  ∧ (∀ uid bid now, ∀ l ∈ db.borrowed,
      l ∈ (borrow_book db uid bid now).2.borrowed)
  ∧ (∀ lid now, ∀ l ∈ db.borrowed,
      ∃ l' ∈ (return_book db lid now).2.borrowed,
        l'.borrow_id = l.borrow_id)
  ∧ (∀ t r, (delete_user_db db t r).1.1 = true →
      (delete_user_db db t r).2.borrowed = db.borrowed
    ∧ (delete_user_db db t r).2.books = db.books
    ∧ (delete_user_db db t r).2.users =
        db.users.filter (fun u => u.user_id != t))
  ∧ (∀ row ∈ list_borrowed_all db, ∃ l ∈ db.borrowed, ∃ u ∈ db.users,
      ∃ b ∈ db.books, u.user_id = l.user_id ∧ b.book_id = l.book_id ∧
      row = ⟨l.borrow_id, u.username, b.title, l.borrow_date, l.due_date,
             l.return_date⟩) := by
  refine ⟨?_, ?_, ?_, ?_, ?_, ?_, ?_, ?_, ?_⟩
  · intro t a i y q l hl
    unfold add_book
    split
    · exact hl
    split
    · exact hl
    · exact hl
  · intro bid t a i y qt qa l hl
    unfold update_book
    split
    · exact hl
    · exact hl
  · intro bid l hl
    unfold delete_book
    split
    · exact hl
    · exact hl
  · intro u p ro l hl
    unfold register_user
    split
    · exact hl
    split
    · exact hl
    · exact hl
  · intro t r l hl
    unfold delete_user_db
    cases hfind : db.users.find? (fun u => u.user_id == t) with
    | none => exact hl
    | some target =>
      dsimp only
      split
      · exact hl
      split
      · exact hl
      split
      · exact hl
      · exact hl
  · intro uid bid now l hl
    unfold borrow_book
    cases hfind : db.books.find? (fun b => b.book_id == bid) with
    | none => exact hl
    | some row =>
      dsimp only
      split
      · exact hl
      · exact List.mem_append_left _ hl
  · intro lid now l hl
    unfold return_book
    cases hfind : db.borrowed.find? (fun x => x.borrow_id == lid) with
    | none => exact ⟨l, hl, rfl⟩
    | some row =>
      dsimp only
      cases hret : row.return_date with
      | some t0 => exact ⟨l, hl, rfl⟩
      | none =>
        dsimp only
        refine ⟨if l.borrow_id == lid then { l with return_date := some now }
          else l, List.mem_map_of_mem _ hl, ?_⟩
        by_cases h : (l.borrow_id == lid) = true
        · rw [if_pos h]
        · rw [if_neg h]
  · intro t r hs
    unfold delete_user_db at hs ⊢
    cases hfind : db.users.find? (fun u => u.user_id == t) with
    | none =>
      rw [hfind] at hs
      simp at hs
    | some target =>
      rw [hfind] at hs
      dsimp only at hs ⊢
      cases r with
      | none =>
        dsimp only at hs ⊢
        rw [if_neg (by simp : ¬(false = true))] at hs ⊢
        by_cases h2 : 0 < openLoanCountForUser db t
        · rw [if_pos h2] at hs
          simp at hs
        · rw [if_neg h2] at hs ⊢
          by_cases h3 : (target.role == "admin") = true ∧ adminCount db ≤ 1
          · rw [if_pos h3] at hs
            simp at hs
          · rw [if_neg h3]
            exact ⟨rfl, rfl, rfl⟩
      | some rr =>
        dsimp only at hs ⊢
        by_cases h1 : (t == rr) = true
        · rw [if_pos h1] at hs
          simp at hs
        · rw [if_neg h1] at hs ⊢
          by_cases h2 : 0 < openLoanCountForUser db t
          · rw [if_pos h2] at hs
            simp at hs
          · rw [if_neg h2] at hs ⊢
            by_cases h3 : (target.role == "admin") = true ∧ adminCount db ≤ 1
            · rw [if_pos h3] at hs
              simp at hs
            · rw [if_neg h3]
              exact ⟨rfl, rfl, rfl⟩
  · intro row hrow
    unfold list_borrowed_all at hrow
    have hrow2 := (List.perm_insertionSort borrowDateGe _).mem_iff.mp hrow
    obtain ⟨l, hl, heq⟩ := List.mem_filterMap.mp hrow2
    cases hu : db.users.find? (fun u => u.user_id == l.user_id) with
    | none =>
      rw [hu] at heq
      simp at heq
    | some u =>
      rw [hu] at heq
      cases hbk : db.books.find? (fun b => b.book_id == l.book_id) with
      | none =>
        rw [hbk] at heq
        simp at heq
      | some b =>
        rw [hbk] at heq
        dsimp only at heq
        refine ⟨l, hl, u, List.mem_of_find?_eq_some hu,
          b, List.mem_of_find?_eq_some hbk,
          by simpa using List.find?_some hu,
          by simpa using List.find?_some hbk, ?_⟩
        exact (Option.some.injEq _ _ ▸ heq).symm

/-- Witness: a loan record survives a book deletion at a concrete
database. -/
theorem loan_records_persist_spec_witness :
    (⟨1, 4, 1, 50, 64, none⟩ : Loan) ∈ (delete_book loanedDB 2).2.borrowed :=
  (loan_records_persist_spec loanedDB).2.2.1 2 ⟨1, 4, 1, 50, 64, none⟩
    (by decide)

end LMS
